import Mathlib

/-!
Verification of `braft`'s `RepeatedTimerTask`
(`src/raft/repeated_timer_task.cpp`), a safely cancellable, re-armable
periodic timer.

Shallow embedding.  The C++ object guards every state access with a single
mutex; the only code that runs without the lock is the user action `run()`,
the destruction hook in two branches of `destroy()`, and the re-entry into
the fire path when registration fails.  We therefore model the program as a
transition system whose atomic steps are exactly the lock-protected
regions:

* the public operations `init`, `start`, `stop`, `reset` (both overloads)
  and `destroy`, each one lock region (plus the external-subsystem calls
  they make while holding the lock);
* the member callback `on_timedout()` split into two atomic steps, because
  it releases the lock around `run()`:
  - `fireBegin`: lock, `_invoking = true`, unlock, start executing `run()`;
  - `fireEnd`: `run()` returned, lock, `_invoking = false`, reconcile.

The two external collaborators are modelled through ghost fields:

* `armed` — a registration is outstanding with the timer subsystem
  (`raft_timer_add` succeeded and the timer has neither fired nor been
  deleted).  `raft_timer_del` succeeds exactly when the registration is
  still cancellable, i.e. `armed = true`; whether the fire beat the
  cancellation is the adversary's choice of interleaving (the
  `fireDeliver` step below).
* `pending` — number of fire callbacks delivered (or synthesized by the
  registration-failure fallback) whose member `on_timedout()` has not yet
  reached its locked prologue.  The static `on_timedout(void*)` hands the
  callback to a fresh bthread, or — when `bthread_start_background`
  fails — runs it on the current thread after the lock was already
  released; in the interleaved model both simply make one more callback
  pending.
* `inflight` — number of callbacks between `fireBegin` and `fireEnd`,
  i.e. currently executing `run()`.
* `runCalls` — how many times the user action `run()` has been started.
* `destroyCalls` — how many times the destruction hook `on_destroy()` has
  been invoked.

The `Int`-valued clock: due-times and "now" are milliseconds; `schedule`
computes `next_duetime = now + adjust_timeout_ms(timeout_ms)` exactly as
`base::milliseconds_from_now(adjust_timeout_ms(_timeout_ms))` does.
-/

namespace RepeatedTimerTask

/-- State of one `RepeatedTimerTask`: the six C++ fields (`_timer` is
replaced by the ghost view `armed` of the subsystem registration it
handles) plus the ghost fields described in the file header. -/
structure TState where
  timeout_ms : Int
  stopped : Bool
  running : Bool
  destroyed : Bool
  invoking : Bool
  next_duetime : Int
  armed : Bool
  pending : Nat
  inflight : Nat
  runCalls : Nat
  destroyCalls : Nat
deriving DecidableEq, Repr

/-- The state established by the constructor `RepeatedTimerTask()`:
`_timeout_ms(0), _stopped(true), _running(false), _destroyed(false),
_invoking(false)`. -/
def initialState : TState :=
  { timeout_ms := 0
    stopped := true
    running := false
    destroyed := false
    invoking := false
    next_duetime := 0
    armed := false
    pending := 0
    inflight := 0
    runCalls := 0
    destroyCalls := 0 }

/-- `int RepeatedTimerTask::init(int timeout_ms)`: assigns `_timeout_ms`,
`_destroyed = false`, `_stopped = true`, `_running = false` and a fresh
`_timer` handle.  Note that the C++ function does not write `_invoking`. -/
def init (s : TState) (timeout_ms : Int) : TState :=
  { s with
    timeout_ms := timeout_ms
    destroyed := false
    stopped := true
    running := false }

/-- `RepeatedTimerTask::schedule` (called with the lock held):
`_next_duetime = base::milliseconds_from_now(adjust_timeout_ms(_timeout_ms))`,
then `raft_timer_add`.  On success a registration is outstanding
(`armed := true`).  On failure the code unlocks and re-enters the static
`on_timedout(this)`, which makes one more callback pending (on a fresh
bthread, or on the current thread once the lock is dropped). -/
def schedule (adjust : Int → Int) (now : Int) (addOk : Bool) (s : TState) : TState :=
  let s1 := { s with next_duetime := now + adjust s.timeout_ms }
  if addOk then { s1 with armed := true }
  else { s1 with pending := s1.pending + 1 }

/-- `RepeatedTimerTask::stop()`: return if `_stopped`; `_stopped = true`;
`CHECK(_running)`; `raft_timer_del` succeeds (rc 0) exactly when the
registration is still cancellable (`armed`), in which case
`_running = false`. -/
def stop (s : TState) : TState :=
  if s.stopped then s
  else
    let s1 := { s with stopped := true }
    if s1.armed then { s1 with armed := false, running := false }
    else s1

/-- `RepeatedTimerTask::start()`: return if `_destroyed`; return if
`!_stopped`; `_stopped = false`; return if `_running` (the former timer
was not successfully deleted and its callback will rearm); else
`_running = true` and `schedule`. -/
def start (adjust : Int → Int) (now : Int) (addOk : Bool) (s : TState) : TState :=
  if s.destroyed then s
  else if !s.stopped then s
  else
    let s1 := { s with stopped := false }
    if s1.running then s1
    else schedule adjust now addOk { s1 with running := true }

/-- The timer subsystem delivers the fire of the outstanding registration:
the registration is consumed and the static `on_timedout(void*)` makes the
member callback pending (via `bthread_start_background`, or synchronously
on dispatch failure). -/
def fireDeliver (s : TState) : TState :=
  { s with armed := false, pending := s.pending + 1 }

/-- First half of the member `RepeatedTimerTask::on_timedout()`: lock,
`_invoking = true`, unlock, and the user action `run()` starts executing
(counted in `runCalls`). -/
def fireBegin (s : TState) : TState :=
  { s with
    pending := s.pending - 1
    inflight := s.inflight + 1
    invoking := true
    runCalls := s.runCalls + 1 }

/-- Second half of the member `RepeatedTimerTask::on_timedout()`: `run()`
returned; lock; `_invoking = false`; `CHECK(_running)`; if `_stopped`
then (if `_destroyed` invoke `on_destroy()`), `_running = false`; else
`schedule`. -/
def fireEnd (adjust : Int → Int) (now : Int) (addOk : Bool) (s : TState) : TState :=
  let s1 := { s with inflight := s.inflight - 1, invoking := false }
  if s1.stopped then
    let s2 :=
      if s1.destroyed then { s1 with destroyCalls := s1.destroyCalls + 1 }
      else s1
    { s2 with running := false }
  else schedule adjust now addOk s1

/-- `RepeatedTimerTask::reset()`: return if `_stopped`; `CHECK(_running)`;
`raft_timer_del` succeeds exactly when `armed`, and then `schedule`;
otherwise `on_timedout` will invoke `schedule`. -/
def reset (adjust : Int → Int) (now : Int) (addOk : Bool) (s : TState) : TState :=
  if s.stopped then s
  else if s.armed then schedule adjust now addOk { s with armed := false }
  else s

/-- `RepeatedTimerTask::reset(int timeout_ms)`: `_timeout_ms = timeout_ms`
unconditionally; then exactly as `reset()`. -/
def reset_ms (adjust : Int → Int) (now : Int) (addOk : Bool) (t : Int) (s : TState) : TState :=
  let s1 := { s with timeout_ms := t }
  if s1.stopped then s1
  else if s1.armed then schedule adjust now addOk { s1 with armed := false }
  else s1

/-- `RepeatedTimerTask::destroy()`: return if `_destroyed`;
`_destroyed = true`; if `!_running` then `CHECK(_stopped)`, unlock,
`on_destroy()`, return; return if `_stopped`; `_stopped = true`;
`raft_timer_del` succeeds exactly when `armed`, then `_running = false`,
unlock, `on_destroy()`; else `CHECK(_running)`. -/
def destroy (s : TState) : TState :=
  if s.destroyed then s
  else
    let s1 := { s with destroyed := true }
    if !s1.running then { s1 with destroyCalls := s1.destroyCalls + 1 }
    else if s1.stopped then s1
    else
      let s2 := { s1 with stopped := true }
      if s2.armed then
        { s2 with armed := false, running := false, destroyCalls := s2.destroyCalls + 1 }
      else s2

/-- One atomic step of the interleaved system: any caller thread runs one
public operation, the timer subsystem delivers an armed registration, or
an in-flight callback executes one of its two lock regions. -/
inductive Step (adjust : Int → Int) : TState → TState → Prop where
  | start (now : Int) (addOk : Bool) (s : TState) :
      Step adjust s (start adjust now addOk s)
  | stop (s : TState) : Step adjust s (stop s)
  | reset (now : Int) (addOk : Bool) (s : TState) :
      Step adjust s (reset adjust now addOk s)
  | reset_ms (now : Int) (addOk : Bool) (t : Int) (s : TState) :
      Step adjust s (reset_ms adjust now addOk t s)
  | destroy (s : TState) : Step adjust s (destroy s)
  | fireDeliver (s : TState) (h : s.armed = true) :
      Step adjust s (fireDeliver s)
  | fireBegin (s : TState) (h : 0 < s.pending) :
      Step adjust s (fireBegin s)
  | fireEnd (now : Int) (addOk : Bool) (s : TState) (h : 0 < s.inflight) :
      Step adjust s (fireEnd adjust now addOk s)

/-- States reachable in one lifecycle: `init` on a freshly constructed
task, then any interleaving of operations and fires. -/
inductive Reachable (adjust : Int → Int) : TState → Prop where
  | init (t : Int) : Reachable adjust (init initialState t)
  | step {s s' : TState} :
      Reachable adjust s → Step adjust s s' → Reachable adjust s'

/-- Number of outstanding "fire obligations": an armed registration, a
pending callback, or an in-flight callback.  The no-double-arm property
is `regs s ≤ 1`. -/
def regs (s : TState) : Nat :=
  (if s.armed then 1 else 0) + s.pending + s.inflight

/-- The inductive invariant of the transition system. -/
def Inv (s : TState) : Prop :=
  regs s = (if s.running then 1 else 0) ∧
  (s.stopped = false → s.running = true) ∧
  (s.invoking = true ↔ s.inflight = 1) ∧
  (s.destroyed = true → s.stopped = true) ∧
  s.destroyCalls = (if s.destroyed = true ∧ s.running = false then 1 else 0)

/-!
Sequential embedding of the registration-failure fallback.

When `raft_timer_add` fails, `schedule` unlocks and calls the static
`on_timedout(this)` directly; the static handler tries
`bthread_start_background(run_on_timedout_in_new_thread, arg)` and, only
if that dispatch itself fails, runs the member `on_timedout()`
synchronously on the current thread.  To reason about what has happened
by the time `start()` itself returns, we embed this call chain as a
single-threaded function.  Each schedule attempt consumes one oracle
entry saying what the external world answers: the current time, whether
`raft_timer_add` succeeds, and whether the bthread dispatch succeeds.
-/

/-- Environment answers for one `schedule` attempt: the clock value, the
result of `raft_timer_add`, and the result of
`bthread_start_background` in the static `on_timedout`. -/
structure SchedOracle where
  now : Int
  addOk : Bool
  dispatchOk : Bool

/-- Sequential `schedule`, following the call chain run on the calling
thread to completion.  `raft_timer_add` success arms the registration;
failure re-enters the static `on_timedout(this)`: bthread dispatch
success leaves the member callback pending on the new thread, while
dispatch failure runs the member `on_timedout()` synchronously — it sets
and clears `_invoking` around `run()` (collapsed here, since no other
thread interleaves), `CHECK(_running)`, finalizes if `_stopped`, and
otherwise recurses into `schedule` with the next oracle entry. -/
def scheduleSeq (adjust : Int → Int) : List SchedOracle → TState → TState
  | [], s => s
  | o :: rest, s =>
    let s1 := { s with next_duetime := o.now + adjust s.timeout_ms }
    if o.addOk then { s1 with armed := true }
    else if o.dispatchOk then { s1 with pending := s1.pending + 1 }
    else
      let s2 := { s1 with runCalls := s1.runCalls + 1 }
      if s2.stopped then
        let s3 :=
          if s2.destroyed then { s2 with destroyCalls := s2.destroyCalls + 1 }
          else s2
        { s3 with running := false }
      else scheduleSeq adjust rest s2

/-- Sequential `start()`: as `start`, but the schedule attempt and any
synchronous fallback executions it leads to are followed to completion
on the calling thread. -/
def startSeq (adjust : Int → Int) (os : List SchedOracle) (s : TState) : TState :=
  if s.destroyed then s
  else if !s.stopped then s
  else
    let s1 := { s with stopped := false }
    if s1.running then s1
    else scheduleSeq adjust os { s1 with running := true }

/-!
Embedding of `RepeatedTimerTask::describe(std::ostream&, bool)`.

The C++ function copies `_stopped`, `_running`, `_destroyed`,
`_invoking`, `_next_duetime` and `_timeout_ms` into locals while holding
the lock, unlocks, and only then formats.  We model the copied locals as
a `Snapshot` and the formatting as a pure function of the snapshot and
of the clock value `gettimeofday_ms()` read during formatting — that the
lock is not held while formatting is expressed by `describe` depending
on nothing but the snapshot. -/
structure Snapshot where
  stopped : Bool
  running : Bool
  destroyed : Bool
  invoking : Bool
  next_duetime : Int
  timeout_ms : Int
deriving DecidableEq, Repr

/-- The snapshot `describe` takes under the lock. -/
def snapshotOf (s : TState) : Snapshot :=
  ⟨s.stopped, s.running, s.destroyed, s.invoking, s.next_duetime, s.timeout_ms⟩

/-- The sequence of `os <<` writes after the lock is released:
`timeout(...)`, then ` DESTROYED` if destroyed, then ` STOPPED` if
stopped, then — if running — either ` INVOKING` or
` SCHEDULING(in ...ms)` with `timespec_to_milliseconds(duetime) -
gettimeofday_ms()` milliseconds. -/
def describe (snap : Snapshot) (now : Int) : String :=
  let out := "timeout(" ++ toString snap.timeout_ms ++ "ms)"
  let out := if snap.destroyed then out ++ " DESTROYED" else out
  let out := if snap.stopped then out ++ " STOPPED" else out
  if snap.running then
    if snap.invoking then out ++ " INVOKING"
    else out ++ " SCHEDULING(in " ++ toString (snap.next_duetime - now) ++ "ms)"
  else out

/-- Abstract status tags, for stating which tags a `describe` output
carries. -/
inductive StatusTag where
  | DESTROYED : StatusTag
  | STOPPED : StatusTag
  | INVOKING : StatusTag
  | SCHEDULING : Int → StatusTag
deriving BEq, DecidableEq, Repr

/-- Rendering of one status tag, as `describe` prints it. -/
def renderTag : StatusTag → String
  | .DESTROYED => "DESTROYED"
  | .STOPPED => "STOPPED"
  | .INVOKING => "INVOKING"
  | .SCHEDULING n => "SCHEDULING(in " ++ toString n ++ "ms)"

/-- The list of status tags a snapshot produces, in output order. -/
def statusTags (snap : Snapshot) (now : Int) : List StatusTag :=
  (if snap.destroyed then [.DESTROYED] else []) ++
  (if snap.stopped then [.STOPPED] else []) ++
  (if snap.running then
    (if snap.invoking then [.INVOKING]
     else [.SCHEDULING (snap.next_duetime - now)])
   else [])

/-- Concrete `adjust_timeout_ms` used by the witness states: the default
identity adjustment. -/
def sampleAdjust : Int → Int := fun x => x

/-- Concrete perturbing `adjust_timeout_ms`, used to witness that the
due-time is computed through the adjustment hook. -/
def sampleAdjust7 : Int → Int := fun x => x + 7

/-- Witness state: freshly initialized with period 100. -/
def sIdle : TState := init initialState 100

/-- Witness state: started at time 0, registration armed. -/
def sArmed : TState := start sampleAdjust 0 true sIdle

/-- Witness state: the registration fired, callback dispatched but not
yet begun. -/
def sPending : TState := fireDeliver sArmed

/-- Witness state: the callback began, the user action is executing. -/
def sInflight : TState := fireBegin sPending

/-- Witness state: `stop()` raced with the in-flight callback, its
cancellation failed. -/
def sStopDeferred : TState := stop sInflight

/-- Witness state: destroyed while idle; the hook ran immediately. -/
def sDestroyed : TState := destroy sIdle


theorem inv_init (t : Int) : Inv (init initialState t) := by
  simp [Inv, regs, init, initialState]

theorem inv_start (adjust : Int → Int) (now : Int) (addOk : Bool) (s : TState)
    (h : Inv s) : Inv (start adjust now addOk s) := by
  obtain ⟨tm, st, ru, de, iv, nd, ar, pe, infl, rc, dc⟩ := s
  obtain ⟨h1, h2, h3, h4, h5⟩ := h
  simp only [Inv, regs, start, schedule] at *
  cases st <;> cases ru <;> cases de <;> cases iv <;> cases ar <;> cases addOk <;>
    simp_all <;> omega

theorem inv_stop (s : TState) (h : Inv s) : Inv (stop s) := by
  obtain ⟨tm, st, ru, de, iv, nd, ar, pe, infl, rc, dc⟩ := s
  obtain ⟨h1, h2, h3, h4, h5⟩ := h
  simp only [Inv, regs, stop] at *
  cases st <;> cases ru <;> cases de <;> cases iv <;> cases ar <;>
    simp_all <;> omega

theorem inv_reset (adjust : Int → Int) (now : Int) (addOk : Bool) (s : TState)
    (h : Inv s) : Inv (reset adjust now addOk s) := by
  obtain ⟨tm, st, ru, de, iv, nd, ar, pe, infl, rc, dc⟩ := s
  obtain ⟨h1, h2, h3, h4, h5⟩ := h
  simp only [Inv, regs, reset, schedule] at *
  cases st <;> cases ru <;> cases de <;> cases iv <;> cases ar <;> cases addOk <;>
    simp_all <;> omega

theorem inv_reset_ms (adjust : Int → Int) (now : Int) (addOk : Bool) (t : Int)
    (s : TState) (h : Inv s) : Inv (reset_ms adjust now addOk t s) := by
  obtain ⟨tm, st, ru, de, iv, nd, ar, pe, infl, rc, dc⟩ := s
  obtain ⟨h1, h2, h3, h4, h5⟩ := h
  simp only [Inv, regs, reset_ms, schedule] at *
  cases st <;> cases ru <;> cases de <;> cases iv <;> cases ar <;> cases addOk <;>
    simp_all <;> omega

theorem inv_destroy (s : TState) (h : Inv s) : Inv (destroy s) := by
  obtain ⟨tm, st, ru, de, iv, nd, ar, pe, infl, rc, dc⟩ := s
  obtain ⟨h1, h2, h3, h4, h5⟩ := h
  simp only [Inv, regs, destroy] at *
  cases st <;> cases ru <;> cases de <;> cases iv <;> cases ar <;>
    simp_all <;> omega

theorem inv_fireDeliver (s : TState) (ha : s.armed = true) (h : Inv s) :
    Inv (fireDeliver s) := by
  obtain ⟨tm, st, ru, de, iv, nd, ar, pe, infl, rc, dc⟩ := s
  obtain ⟨h1, h2, h3, h4, h5⟩ := h
  simp only [Inv, regs, fireDeliver] at *
  cases st <;> cases ru <;> cases de <;> cases iv <;> cases ar <;>
    simp_all <;> omega

theorem inv_fireBegin (s : TState) (hp : 0 < s.pending) (h : Inv s) :
    Inv (fireBegin s) := by
  obtain ⟨tm, st, ru, de, iv, nd, ar, pe, infl, rc, dc⟩ := s
  obtain ⟨h1, h2, h3, h4, h5⟩ := h
  simp only [Inv, regs, fireBegin] at *
  cases st <;> cases ru <;> cases de <;> cases iv <;> cases ar <;>
    simp_all <;> omega

theorem inv_fireEnd (adjust : Int → Int) (now : Int) (addOk : Bool) (s : TState)
    (hi : 0 < s.inflight) (h : Inv s) : Inv (fireEnd adjust now addOk s) := by
  obtain ⟨tm, st, ru, de, iv, nd, ar, pe, infl, rc, dc⟩ := s
  obtain ⟨h1, h2, h3, h4, h5⟩ := h
  simp only [Inv, regs, fireEnd, schedule] at *
  cases st <;> cases ru <;> cases de <;> cases iv <;> cases ar <;> cases addOk <;>
    simp_all <;> omega

theorem inv_step {adjust : Int → Int} {s s' : TState}
    (hs : Step adjust s s') (h : Inv s) : Inv s' := by
  cases hs with
  | start now addOk s => exact inv_start adjust now addOk s h
  | stop s => exact inv_stop s h
  | reset now addOk s => exact inv_reset adjust now addOk s h
  | reset_ms now addOk t s => exact inv_reset_ms adjust now addOk t s h
  | destroy s => exact inv_destroy s h
  | fireDeliver s ha => exact inv_fireDeliver s ha h
  | fireBegin s hp => exact inv_fireBegin s hp h
  | fireEnd now addOk s hi => exact inv_fireEnd adjust now addOk s hi h

theorem reachable_inv {adjust : Int → Int} {s : TState}
    (h : Reachable adjust s) : Inv s := by
  induction h with
  | init t => exact inv_init t
  | step _ hs ih => exact inv_step hs ih

theorem tag_split_ds :
    (" DESTROYED STOPPED" : String) = " DESTROYED" ++ " STOPPED" := rfl

theorem tag_split_di :
    (" DESTROYED INVOKING" : String) = " DESTROYED" ++ " INVOKING" := rfl

theorem tag_split_dsch :
    (" DESTROYED SCHEDULING(in " : String) = " DESTROYED" ++ " SCHEDULING(in " := rfl

theorem tag_split_si :
    (" STOPPED INVOKING" : String) = " STOPPED" ++ " INVOKING" := rfl

theorem tag_split_ssch :
    (" STOPPED SCHEDULING(in " : String) = " STOPPED" ++ " SCHEDULING(in " := rfl

theorem tag_split_dsi :
    (" DESTROYED STOPPED INVOKING" : String) =
      " DESTROYED" ++ (" STOPPED" ++ " INVOKING") := rfl

theorem tag_split_dssch :
    (" DESTROYED STOPPED SCHEDULING(in " : String) =
      " DESTROYED" ++ (" STOPPED" ++ " SCHEDULING(in ") := rfl

theorem tag_split_sp :
    (" SCHEDULING(in " : String) = " " ++ "SCHEDULING(in " := rfl

/-- Agreement of the faithful `describe` with the tag-list abstraction:
the output is the period followed by the rendered tags, space-separated. -/
theorem describe_eq_tags (snap : Snapshot) (now : Int) :
    describe snap now =
      "timeout(" ++ toString snap.timeout_ms ++ "ms)" ++
        String.join ((statusTags snap now).map (fun t => " " ++ renderTag t)) := by
  obtain ⟨st, ru, de, iv, nd, tm⟩ := snap
  cases st <;> cases ru <;> cases de <;> cases iv <;>
    simp [describe, statusTags, renderTag, String.join, String.append_empty] <;>
    simp only [tag_split_ds, tag_split_di, tag_split_dsch, tag_split_si,
      tag_split_ssch, tag_split_dsi, tag_split_dssch, tag_split_sp,
      String.append_assoc]

theorem reach_sIdle : Reachable sampleAdjust sIdle :=
  Reachable.init 100

theorem reach_sArmed : Reachable sampleAdjust sArmed :=
  Reachable.step reach_sIdle (Step.start 0 true sIdle)

theorem reach_sPending : Reachable sampleAdjust sPending :=
  Reachable.step reach_sArmed (Step.fireDeliver sArmed (by decide))

theorem reach_sInflight : Reachable sampleAdjust sInflight :=
  Reachable.step reach_sPending (Step.fireBegin sPending (by decide))

theorem reach_sStopDeferred : Reachable sampleAdjust sStopDeferred :=
  Reachable.step reach_sInflight (Step.stop sInflight)

theorem reach_sDestroyed : Reachable sampleAdjust sDestroyed :=
  Reachable.step reach_sIdle (Step.destroy sIdle)

/-- Helper: no step un-sets `destroyed` (`init` is not a step). -/
theorem step_destroyed_mono {adjust : Int → Int} {s s' : TState}
    (hs : Step adjust s s') (hd : s.destroyed = true) : s'.destroyed = true := by
  cases hs <;>
    simp_all [start, stop, reset, reset_ms, destroy, fireDeliver, fireBegin,
      fireEnd, schedule] <;>
    split_ifs <;> simp_all

/-- C10: every state reachable from the state produced by `init` via
start/stop/reset/destroy and the fire callback satisfies
`stopped = false → running = true`; consequently the `CHECK(_running)`
assertions guarding `stop()`, `reset()`, `reset(new_timeout_ms)`,
`destroy()` and the post-run reconciliation in `on_timedout` never fail
on reachable states (those checks run either when `stopped` is false or
inside a callback, i.e. when `inflight` or `pending` is positive), and
neither does `destroy()`'s `CHECK(_stopped)` when not running. -/
theorem reachable_checks_hold (adjust : Int → Int) (s : TState)
    (hr : Reachable adjust s) :
    (s.stopped = false → s.running = true) ∧
    (0 < s.inflight → s.running = true) ∧
    (0 < s.pending → s.running = true) ∧
    (s.running = false → s.stopped = true) := by
  obtain ⟨h1, h2, h3, h4, h5⟩ := reachable_inv hr
  obtain ⟨tm, st, ru, de, iv, nd, ar, pe, infl, rc, dc⟩ := s
  cases st <;> cases ru <;> cases ar <;> simp_all [Inv, regs]

/-- Witness for C10 at the concrete reachable in-flight state. -/
theorem reachable_checks_hold_witness :
    Reachable sampleAdjust sInflight ∧
    ((sInflight.stopped = false → sInflight.running = true) ∧
     (0 < sInflight.inflight → sInflight.running = true) ∧
     (0 < sInflight.pending → sInflight.running = true) ∧
     (sInflight.running = false → sInflight.stopped = true)) :=
  ⟨reach_sInflight,
   reachable_checks_hold sampleAdjust sInflight reach_sInflight⟩

/-- C1: if `stop()` is called while a fire is in flight so that
cancellation fails (`raft_timer_del` returns non-zero, i.e. the
registration is no longer cancellable: `armed = false`), `stop()` leaves
`running = true` and `stopped = true`, and when the in-flight callback
`on_timedout` reaches its reconciliation step it observes
`stopped = true`, sets `running = false` and does not call `schedule`:
afterwards no registration is armed, pending or in flight
(`regs … = 0`). -/
theorem stop_cancel_fail_then_reconcile_stops (adjust : Int → Int)
    (now : Int) (addOk : Bool) (s : TState) (hr : Reachable adjust s)
    (hst : s.stopped = false) (harm : s.armed = false) :
    (stop s).stopped = true ∧ (stop s).running = true ∧
    (0 < (stop s).inflight →
      (fireEnd adjust now addOk (stop s)).stopped = true ∧
      (fireEnd adjust now addOk (stop s)).running = false ∧
      regs (fireEnd adjust now addOk (stop s)) = 0) := by
  obtain ⟨h1, h2, h3, h4, h5⟩ := reachable_inv hr
  obtain ⟨tm, st, ru, de, iv, nd, ar, pe, infl, rc, dc⟩ := s
  subst hst harm
  cases ru <;> cases de <;> cases iv <;>
    simp_all [Inv, regs, stop, fireEnd, schedule] <;> omega

/-- Witness for C1: stop racing the in-flight fire of the started task. -/
theorem stop_cancel_fail_then_reconcile_stops_witness :
    (sInflight.stopped = false ∧ sInflight.armed = false ∧
      0 < (stop sInflight).inflight) ∧
    ((stop sInflight).stopped = true ∧ (stop sInflight).running = true ∧
     (0 < (stop sInflight).inflight →
       (fireEnd sampleAdjust 0 true (stop sInflight)).stopped = true ∧
       (fireEnd sampleAdjust 0 true (stop sInflight)).running = false ∧
       regs (fireEnd sampleAdjust 0 true (stop sInflight)) = 0)) :=
  ⟨by decide,
   stop_cancel_fail_then_reconcile_stops sampleAdjust 0 true sInflight
     reach_sInflight (by decide) (by decide)⟩

/-- C3: at most one timer registration is outstanding at any reachable
instant — in fact the armed registration, the pending callbacks and the
in-flight callbacks together never exceed one (`regs s ≤ 1`) — and
`start()` called while `running = true` clears `stopped` but returns
without arming a new registration. -/
theorem no_double_arm (adjust : Int → Int) (now : Int) (addOk : Bool)
    (s : TState) (hr : Reachable adjust s) :
    regs s ≤ 1 ∧
    (s.destroyed = false → s.stopped = true → s.running = true →
      start adjust now addOk s = { s with stopped := false }) := by
  obtain ⟨h1, h2, h3, h4, h5⟩ := reachable_inv hr
  obtain ⟨tm, st, ru, de, iv, nd, ar, pe, infl, rc, dc⟩ := s
  constructor
  · cases ru <;> simp_all [Inv, regs]
  · intro hde hst hru
    subst hde hst hru
    simp [start]

/-- Witness for C3 at the stop-deferred state, where a further `start()`
must not double-arm. -/
theorem no_double_arm_witness :
    Reachable sampleAdjust sStopDeferred ∧
    (regs sStopDeferred ≤ 1 ∧
     (sStopDeferred.destroyed = false → sStopDeferred.stopped = true →
       sStopDeferred.running = true →
       start sampleAdjust 5 true sStopDeferred =
         { sStopDeferred with stopped := false })) :=
  ⟨reach_sStopDeferred,
   no_double_arm sampleAdjust 5 true sStopDeferred reach_sStopDeferred⟩

/-- C6: on every fire the callback sets `invoking = true` when it begins
(before `run()` executes, the lock being released around `run()` is what
the `fireBegin`/`fireEnd` split of `on_timedout` embeds) and clears
`invoking = false` when it reconciles afterwards; and at every reachable
state — i.e. at every lock release — `invoking = true` implies
`running = true`. -/
theorem run_outside_lock_invoking_implies_running (adjust : Int → Int)
    (now : Int) (addOk : Bool) (s : TState) (hr : Reachable adjust s) :
    (s.invoking = true → s.running = true) ∧
    (0 < s.pending →
      (fireBegin s).invoking = true ∧
      (fireBegin s).runCalls = s.runCalls + 1 ∧
      (fireBegin s).running = true) ∧
    (0 < s.inflight → (fireEnd adjust now addOk s).invoking = false) := by
  obtain ⟨h1, h2, h3, h4, h5⟩ := reachable_inv hr
  obtain ⟨tm, st, ru, de, iv, nd, ar, pe, infl, rc, dc⟩ := s
  cases st <;> cases ru <;> cases iv <;>
    simp_all [Inv, regs, fireBegin, fireEnd, schedule] <;>
    split_ifs <;> simp_all

/-- Witness for C6 at the pending-callback state. -/
theorem run_outside_lock_invoking_implies_running_witness :
    Reachable sampleAdjust sPending ∧
    ((sPending.invoking = true → sPending.running = true) ∧
     (0 < sPending.pending →
       (fireBegin sPending).invoking = true ∧
       (fireBegin sPending).runCalls = sPending.runCalls + 1 ∧
       (fireBegin sPending).running = true) ∧
     (0 < sPending.inflight →
       (fireEnd sampleAdjust 0 true sPending).invoking = false)) :=
  ⟨reach_sPending,
   run_outside_lock_invoking_implies_running sampleAdjust 0 true sPending
     reach_sPending⟩

/-- C2: the destruction hook `on_destroy` runs exactly once per destroy
lifecycle and only when the task is fully stopped: on every reachable
state the hook has run at most once, and exactly once precisely when
`destroyed = true` and `running = false` (no outstanding registration or
callback); `destroy()` is a no-op if already destroyed; it invokes the
hook immediately when not running, or when its cancellation succeeds
(`armed = true`), clearing `running`; when cancellation cannot succeed
(`armed = false`) the hook is deferred, and the in-flight callback's
reconciliation adds it exactly when both `stopped` and `destroyed`
hold. -/
theorem on_destroy_exactly_once (adjust : Int → Int) (now : Int)
    (addOk : Bool) (s : TState) (hr : Reachable adjust s) :
    s.destroyCalls ≤ 1 ∧
    (s.destroyCalls = 1 ↔ s.destroyed = true ∧ s.running = false) ∧
    (s.destroyed = true → destroy s = s) ∧
    (s.destroyed = false → s.running = false →
      (destroy s).destroyCalls = s.destroyCalls + 1 ∧
      (destroy s).running = false) ∧
    (s.destroyed = false → s.stopped = false → s.armed = true →
      (destroy s).destroyCalls = s.destroyCalls + 1 ∧
      (destroy s).running = false) ∧
    (s.running = true → s.armed = false →
      (destroy s).destroyCalls = s.destroyCalls) ∧
    (0 < s.inflight →
      (fireEnd adjust now addOk s).destroyCalls =
        s.destroyCalls +
          (if s.stopped = true ∧ s.destroyed = true then 1 else 0)) := by
  obtain ⟨h1, h2, h3, h4, h5⟩ := reachable_inv hr
  obtain ⟨tm, st, ru, de, iv, nd, ar, pe, infl, rc, dc⟩ := s
  cases st <;> cases ru <;> cases de <;> cases ar <;> cases addOk <;>
    simp_all [Inv, regs, destroy, fireEnd, schedule] <;> omega

/-- Witness for C2 at the destroyed-while-idle state, whose hook has run
exactly once. -/
theorem on_destroy_exactly_once_witness :
    Reachable sampleAdjust sDestroyed ∧
    (sDestroyed.destroyCalls ≤ 1 ∧
     (sDestroyed.destroyCalls = 1 ↔
       sDestroyed.destroyed = true ∧ sDestroyed.running = false) ∧
     (sDestroyed.destroyed = true → destroy sDestroyed = sDestroyed) ∧
     (sDestroyed.destroyed = false → sDestroyed.running = false →
       (destroy sDestroyed).destroyCalls = sDestroyed.destroyCalls + 1 ∧
       (destroy sDestroyed).running = false) ∧
     (sDestroyed.destroyed = false → sDestroyed.stopped = false →
       sDestroyed.armed = true →
       (destroy sDestroyed).destroyCalls = sDestroyed.destroyCalls + 1 ∧
       (destroy sDestroyed).running = false) ∧
     (sDestroyed.running = true → sDestroyed.armed = false →
       (destroy sDestroyed).destroyCalls = sDestroyed.destroyCalls) ∧
     (0 < sDestroyed.inflight →
       (fireEnd sampleAdjust 0 true sDestroyed).destroyCalls =
         sDestroyed.destroyCalls +
           (if sDestroyed.stopped = true ∧ sDestroyed.destroyed = true
            then 1 else 0))) :=
  ⟨reach_sDestroyed,
   on_destroy_exactly_once sampleAdjust 0 true sDestroyed reach_sDestroyed⟩

/-- C4 counterexample: the claim says every further lifecycle operation
after `destroy()` leaves the task state unchanged, but
`reset(new_timeout_ms)` still updates the stored period: on the
destroyed state with period 100, `reset(5)` produces a different state
(its `timeout_ms` is 5). -/
theorem destroyed_reset_ms_changes_state :
    sDestroyed.destroyed = true ∧
    reset_ms sampleAdjust 0 true 5 sDestroyed ≠ sDestroyed ∧
    (reset_ms sampleAdjust 0 true 5 sDestroyed).timeout_ms = 5 ∧
    sDestroyed.timeout_ms = 100 := by decide

/-- C4 (amended): `destroyed` is sticky — no step un-sets it — and on a
destroyed reachable state `start()`, `stop()`, `reset()`, `destroy()`
leave the state unchanged, while `reset(new_timeout_ms)` only updates
the stored period `timeout_ms` and has no other effect; the one-time
destruction hook is accounted separately (`destroy` on a destroyed state
is the identity, so it never runs the hook again). -/
theorem destroyed_sticky_noop (adjust : Int → Int) (now : Int)
    (addOk : Bool) (t : Int) (s : TState) (hr : Reachable adjust s)
    (hd : s.destroyed = true) :
    start adjust now addOk s = s ∧
    stop s = s ∧
    reset adjust now addOk s = s ∧
    destroy s = s ∧
    reset_ms adjust now addOk t s = { s with timeout_ms := t } ∧
    (∀ s', Step adjust s s' → s'.destroyed = true) := by
  obtain ⟨h1, h2, h3, h4, h5⟩ := reachable_inv hr
  have hst : s.stopped = true := h4 hd
  refine ⟨?_, ?_, ?_, ?_, ?_, fun s' hs => step_destroyed_mono hs hd⟩
  · simp [start, hd]
  · simp [stop, hst]
  · simp [reset, hst]
  · simp [destroy, hd]
  · simp [reset_ms, hst]

/-- Witness for C4 at the destroyed-while-idle state. -/
theorem destroyed_sticky_noop_witness :
    (Reachable sampleAdjust sDestroyed ∧ sDestroyed.destroyed = true) ∧
    (start sampleAdjust 0 true sDestroyed = sDestroyed ∧
     stop sDestroyed = sDestroyed ∧
     reset sampleAdjust 0 true sDestroyed = sDestroyed ∧
     destroy sDestroyed = sDestroyed ∧
     reset_ms sampleAdjust 0 true 5 sDestroyed =
       { sDestroyed with timeout_ms := 5 } ∧
     (∀ s', Step sampleAdjust sDestroyed s' → s'.destroyed = true)) :=
  ⟨⟨reach_sDestroyed, by decide⟩,
   destroyed_sticky_noop sampleAdjust 0 true 5 sDestroyed reach_sDestroyed
     (by decide)⟩

/-- C5: `reset(new_timeout_ms)` on a stopped task updates the stored
period unconditionally and does nothing else; `reset()` on a stopped
task is a pure no-op; and a subsequent `start()` arms the first
registration with due-time `now + adjust_timeout_ms(new_timeout_ms)`,
computed from the new period, not the one given to `init`. -/
theorem reset_timeout_takes_effect_on_start (adjust : Int → Int)
    (now₁ now₂ : Int) (addOk₁ addOk₂ : Bool) (t : Int) (s : TState)
    (hst : s.stopped = true) :
    reset_ms adjust now₁ addOk₁ t s = { s with timeout_ms := t } ∧
    reset adjust now₁ addOk₁ s = s ∧
    (s.destroyed = false → s.running = false →
      (start adjust now₂ addOk₂
          (reset_ms adjust now₁ addOk₁ t s)).next_duetime =
        now₂ + adjust t) := by
  refine ⟨by simp [reset_ms, hst], by simp [reset, hst], fun hde hru => ?_⟩
  cases addOk₂ <;> simp [reset_ms, start, schedule, hst, hde, hru]

/-- Witness for C5: `init(100)`, `reset(5)` while stopped, then
`start()` at time 3 with the perturbing adjustment `x + 7`: the
due-time is `3 + (5 + 7) = 15`, from the new period. -/
theorem reset_timeout_takes_effect_on_start_witness :
    sIdle.stopped = true ∧
    (reset_ms sampleAdjust7 0 true 5 sIdle = { sIdle with timeout_ms := 5 } ∧
     reset sampleAdjust7 0 true sIdle = sIdle ∧
     (sIdle.destroyed = false → sIdle.running = false →
       (start sampleAdjust7 3 true
           (reset_ms sampleAdjust7 0 true 5 sIdle)).next_duetime =
         3 + sampleAdjust7 5)) :=
  ⟨by decide,
   reset_timeout_takes_effect_on_start sampleAdjust7 0 3 true true 5 sIdle
     (by decide)⟩

/-- C7 counterexample: the claim says a `start()` whose registration
fails results in `run()` being invoked synchronously, but the static
`on_timedout(void*)` hands the synthetic fire to a fresh bthread when
`bthread_start_background` succeeds: following the fallback chain of
`start()` on the fresh task with `raft_timer_add` failing and the
bthread dispatch succeeding, `run()` has not been invoked when `start()`
returns (`runCalls = 0`); the callback is merely pending. -/
theorem register_failure_not_synchronous :
    (startSeq sampleAdjust [⟨0, false, true⟩] sIdle).runCalls = 0 ∧
    (startSeq sampleAdjust [⟨0, false, true⟩] sIdle).pending = 1 := by
  decide

/-- C7 (amended): registration failure is not surfaced to the caller:
`schedule` releases the lock and re-enters the timer-fire callback path
directly as an immediate synthetic fire, so `start()` on a subsystem
that always fails to register still results in the user action `run()`
being invoked rather than the task never firing — synchronously within
`start()` when the background dispatch also fails, and otherwise on a
freshly spawned background thread whose callback then executes
`run()`. -/
theorem register_failure_immediate_fire (adjust : Int → Int)
    (now₁ now₂ : Int) (s : TState) (hde : s.destroyed = false)
    (hst : s.stopped = true) (hru : s.running = false) :
    (startSeq adjust [⟨now₁, false, false⟩, ⟨now₂, false, true⟩] s).runCalls =
      s.runCalls + 1 ∧
    (startSeq adjust [⟨now₁, false, true⟩] s).pending = s.pending + 1 ∧
    (fireBegin (startSeq adjust [⟨now₁, false, true⟩] s)).runCalls =
      s.runCalls + 1 := by
  refine ⟨?_, ?_, ?_⟩ <;>
    simp [startSeq, scheduleSeq, fireBegin, hde, hst, hru]

/-- Witness for C7 on the fresh task. -/
theorem register_failure_immediate_fire_witness :
    (sIdle.destroyed = false ∧ sIdle.stopped = true ∧
      sIdle.running = false) ∧
    ((startSeq sampleAdjust [⟨0, false, false⟩, ⟨4, false, true⟩]
        sIdle).runCalls = sIdle.runCalls + 1 ∧
     (startSeq sampleAdjust [⟨0, false, true⟩] sIdle).pending =
       sIdle.pending + 1 ∧
     (fireBegin (startSeq sampleAdjust [⟨0, false, true⟩] sIdle)).runCalls =
       sIdle.runCalls + 1) :=
  ⟨by decide,
   register_failure_immediate_fire sampleAdjust 0 4 sIdle (by decide)
     (by decide) (by decide)⟩

/-- C8 counterexample: the claim says `describe` emits exactly one of
the status tags for every snapshot of the flags, but a destroyed task is
also stopped, and its snapshot — here the snapshot of the reachable
destroyed state — yields two tags, `DESTROYED` and `STOPPED`. -/
theorem describe_two_tags :
    describe (snapshotOf sDestroyed) 0 = "timeout(100ms) DESTROYED STOPPED" ∧
    (statusTags (snapshotOf sDestroyed) 0).length = 2 := by
  constructor
  · rfl
  · decide

/-- C8 (amended): `describe` snapshots the flags, the due-time and the
period under the lock and formats only the snapshot afterwards (it is a
function of the snapshot alone); the output is the period followed by
the rendered status tags in order — `DESTROYED` exactly when destroyed,
`STOPPED` exactly when stopped, and, when running, exactly one of
`INVOKING` (when invoking) or `SCHEDULING(in N ms)` with `N` the
milliseconds from the formatting-time clock to the snapshotted
due-time — so several tags may appear together. -/
theorem describe_snapshot_tags (snap : Snapshot) (now : Int) :
    describe snap now =
      "timeout(" ++ toString snap.timeout_ms ++ "ms)" ++
        String.join ((statusTags snap now).map (fun t => " " ++ renderTag t)) ∧
    (StatusTag.DESTROYED ∈ statusTags snap now ↔ snap.destroyed = true) ∧
    (StatusTag.STOPPED ∈ statusTags snap now ↔ snap.stopped = true) ∧
    (StatusTag.INVOKING ∈ statusTags snap now ↔
      snap.running = true ∧ snap.invoking = true) ∧
    (StatusTag.SCHEDULING (snap.next_duetime - now) ∈ statusTags snap now ↔
      snap.running = true ∧ snap.invoking = false) ∧
    ((statusTags snap now).countP
        (fun t => match t with
          | StatusTag.INVOKING => true
          | StatusTag.SCHEDULING _ => true
          | _ => false) = if snap.running then 1 else 0) := by
  refine ⟨describe_eq_tags snap now, ?_⟩
  obtain ⟨st, ru, de, iv, nd, tm⟩ := snap
  cases st <;> cases ru <;> cases de <;> cases iv <;>
    simp_all [statusTags, List.countP, List.countP.go]

/-- C9 counterexample: the claim says `init` resets all flags including
`invoking = false`, but the C++ `init` does not write `_invoking`: on
the reachable state whose callback is mid-`run()` (`invoking = true`),
`init(50)` leaves `invoking` true. -/
theorem init_leaves_invoking :
    sInflight.invoking = true ∧ (init sInflight 50).invoking = true := by
  decide

/-- C9 (amended): `init(timeout_ms)` sets `stopped = true`,
`running = false`, `destroyed = false` and stores the given period, with
no side effects beyond internal state (no hook or action runs); it does
not write `invoking`, which it leaves unchanged — `invoking` is false at
construction, so construction followed by `init` yields exactly the
fresh IDLE state. -/
theorem init_fields (s : TState) (t : Int) :
    (init s t).stopped = true ∧
    (init s t).running = false ∧
    (init s t).destroyed = false ∧
    (init s t).timeout_ms = t ∧
    (init s t).invoking = s.invoking ∧
    (init s t).runCalls = s.runCalls ∧
    (init s t).destroyCalls = s.destroyCalls ∧
    init initialState t = { initialState with timeout_ms := t } := by
  simp [init, initialState]

end RepeatedTimerTask
